import Mathlib

/-!
# Verification of the visulinx-api file-lifecycle subsystem

Shallow embedding, in Lean 4, of the parts of the `visulinx-api` backend
(FastAPI + SQLAlchemy + S3) relevant to the frozen claims: the access-control
guard `get_project`, project soft/hard delete, multi-file upload with
background text-extraction scheduling, batch file delete, download-URL
issuance, and the bounding-box extraction endpoint.

Modelling conventions:
* UUIDs are modelled as `Nat`; the `uuid4()` calls in the source draw fresh,
  pairwise-distinct values, which is modelled by a counter threaded through
  the operations (each call consumes the next value).
* Timestamps (`datetime.now()` etc.) are `Nat` values supplied as parameters.
* The database session's tables are the `DB` structure; a SQLAlchemy
  `session.commit()` is the production of the new `DB` value, and a raised
  `HTTPException` aborts the request before any commit, leaving the `DB`
  unchanged.
* External collaborators (libmagic MIME sniffing, `mimetypes.guess_extension`,
  the S3 client's status codes, presigned-URL generation, the document
  extraction HTTP service, and the Gemini AI service) are oracles bundled in
  `S3Env` or passed as function parameters, exactly at the granularity the
  source observes them.
-/

namespace Visulinx

/-- Mirrors `fastapi.HTTPException(status_code, detail)`. -/
structure HTTPException where
  statusCode : Nat
  detail : String
  deriving Repr, DecidableEq

/-- Mirrors `app.models.Organization`: `users` is the many-to-many
membership (we keep only the user ids, which is all the queries inspect). -/
structure Organization where
  id : Nat
  name : String
  userIds : List Nat
  deriving Repr, DecidableEq

/-- Mirrors `app.models.Project`. -/
structure Project where
  id : Nat
  name : String
  description : String
  createdAt : Nat
  deletedAt : Option Nat
  organizationId : Nat
  deriving Repr, DecidableEq

/-- Mirrors `app.models.File`. -/
structure DbFile where
  id : Nat
  path : String
  size : Nat
  mimeType : String
  originalFilename : String
  contents : Option String
  createdAt : Nat
  processedAt : Option Nat
  projectId : Nat
  deriving Repr, DecidableEq

/-- Mirrors `app.models.Preference` (key-value store). -/
structure Preference where
  key : String
  value : String
  deriving Repr, DecidableEq

/-- The relational database visible through a session. -/
structure DB where
  orgs : List Organization
  projects : List Project
  files : List DbFile
  preferences : List Preference
  deriving Repr, DecidableEq

instance {ε α : Type} [DecidableEq ε] [DecidableEq α] :
    DecidableEq (Except ε α) := fun x y =>
  match x, y with
  | .ok a, .ok b =>
    if h : a = b then isTrue (by rw [h])
    else isFalse (by intro hc; cases hc; exact h rfl)
  | .error a, .error b =>
    if h : a = b then isTrue (by rw [h])
    else isFalse (by intro hc; cases hc; exact h rfl)
  | .ok _, .error _ => isFalse (by intro hc; cases hc)
  | .error _, .ok _ => isFalse (by intro hc; cases hc)

/-! ## Decimal rendering of ids

The source embeds `uuid4()` values into S3 keys with an f-string.  We model
the rendering of an id as its decimal digit string.  The rendering is
injective, which is what the uniqueness of the generated keys rests on. -/

/-- Little-endian decimal digits of `n`, with explicit fuel to keep the
definition structural (the fuel `n` itself always suffices). -/
def natDigitsFuel : Nat → Nat → List Nat
  | 0, _ => []
  | fuel + 1, n => if n = 0 then [] else n % 10 :: natDigitsFuel fuel (n / 10)

/-- Little-endian decimal digits of `n`. -/
def natDigits (n : Nat) : List Nat :=
  natDigitsFuel n n

/-- Evaluation of a little-endian decimal digit list. -/
def ofDigits : List Nat → Nat
  | [] => 0
  | d :: ds => d + 10 * ofDigits ds

theorem ofDigits_natDigitsFuel (fuel : Nat) :
    ∀ n, n ≤ fuel → ofDigits (natDigitsFuel fuel n) = n := by
  induction fuel with
  | zero => intro n hn; interval_cases n; simp [natDigitsFuel, ofDigits]
  | succ fuel ih =>
    intro n hn
    by_cases h0 : n = 0
    · simp [natDigitsFuel, h0, ofDigits]
    · have hdiv : n / 10 ≤ fuel := by
        have : n / 10 < n := Nat.div_lt_self (Nat.pos_of_ne_zero h0) (by omega)
        omega
      simp only [natDigitsFuel, h0, if_false, ofDigits, ih (n / 10) hdiv]
      omega

theorem ofDigits_natDigits (n : Nat) : ofDigits (natDigits n) = n :=
  ofDigits_natDigitsFuel n n (Nat.le_refl n)

theorem natDigits_inj {m n : Nat} (h : natDigits m = natDigits n) : m = n := by
  have hm := ofDigits_natDigits m
  rw [h, ofDigits_natDigits] at hm
  exact hm.symm

theorem natDigitsFuel_lt_ten (fuel : Nat) :
    ∀ n d, d ∈ natDigitsFuel fuel n → d < 10 := by
  induction fuel with
  | zero => intro n d hd; simp [natDigitsFuel] at hd
  | succ fuel ih =>
    intro n d hd
    by_cases h0 : n = 0
    · simp [natDigitsFuel, h0] at hd
    · simp only [natDigitsFuel, h0, if_false, List.mem_cons] at hd
      rcases hd with h | h
      · subst h; exact Nat.mod_lt _ (by omega)
      · exact ih _ _ h

theorem natDigits_lt_ten {n d : Nat} (h : d ∈ natDigits n) : d < 10 :=
  natDigitsFuel_lt_ten n n d h

/-- Decimal digit character. -/
def digitChar : Nat → Char
  | 0 => '0'
  | 1 => '1'
  | 2 => '2'
  | 3 => '3'
  | 4 => '4'
  | 5 => '5'
  | 6 => '6'
  | 7 => '7'
  | 8 => '8'
  | _ => '9'

theorem digitChar_inj {a b : Nat} (ha : a < 10) (hb : b < 10)
    (h : digitChar a = digitChar b) : a = b := by
  interval_cases a <;> interval_cases b <;> simp_all [digitChar]

theorem digitChar_ne_dot {a : Nat} (ha : a < 10) : digitChar a ≠ '.' := by
  interval_cases a <;> simp [digitChar]

/-- Decimal string of `n` (the model of how `uuid4()` values and project
ids are rendered into S3 keys by the f-string in `upload_file_to_s3`). -/
def natStr (n : Nat) : String :=
  ⟨(natDigits n).reverse.map digitChar⟩

theorem digitList_map_inj :
    ∀ l₁ l₂ : List Nat, (∀ d ∈ l₁, d < 10) → (∀ d ∈ l₂, d < 10) →
      l₁.map digitChar = l₂.map digitChar → l₁ = l₂ := by
  intro l₁
  induction l₁ with
  | nil => intro l₂ _ _ h; cases l₂ <;> simp_all
  | cons a t ih =>
    intro l₂ h₁ h₂ h
    cases l₂ with
    | nil => simp at h
    | cons b t₂ =>
      simp only [List.map_cons, List.cons.injEq] at h
      have hab : a = b :=
        digitChar_inj (h₁ a (by simp)) (h₂ b (by simp)) h.1
      have ht : t = t₂ :=
        ih t₂ (fun d hd => h₁ d (by simp [hd])) (fun d hd => h₂ d (by simp [hd])) h.2
      rw [hab, ht]

theorem natStr_inj {m n : Nat} (h : natStr m = natStr n) : m = n := by
  have hdata : (natDigits m).reverse.map digitChar
      = (natDigits n).reverse.map digitChar := congrArg String.data h
  have hrev : (natDigits m).reverse = (natDigits n).reverse :=
    digitList_map_inj _ _
      (fun d hd => natDigits_lt_ten (List.mem_reverse.mp hd))
      (fun d hd => natDigits_lt_ten (List.mem_reverse.mp hd))
      hdata
  exact natDigits_inj (List.reverse_injective hrev)

theorem natStr_no_dot {n : Nat} : ∀ c ∈ (natStr n).data, (c != '.') = true := by
  intro c hc
  simp only [natStr, List.mem_map, List.mem_reverse] at hc
  obtain ⟨d, hd, rfl⟩ := hc
  simpa using digitChar_ne_dot (natDigits_lt_ten hd)

/-- `takeWhile` swallows exactly a block that satisfies the predicate when
the remainder starts with a character that does not. -/
theorem takeWhile_append_block {α : Type} (p : α → Bool) :
    ∀ (l₁ l₂ : List α), (∀ a ∈ l₁, p a = true) →
      (∀ a, l₂.head? = some a → p a = false) →
      List.takeWhile p (l₁ ++ l₂) = l₁ := by
  intro l₁
  induction l₁ with
  | nil =>
    intro l₂ _ h₂
    cases l₂ with
    | nil => simp
    | cons b t => simp [List.takeWhile, h₂ b rfl]
  | cons a t ih =>
    intro l₂ h₁ h₂
    simp only [List.cons_append, List.takeWhile, h₁ a (by simp)]
    simp [ih l₂ (fun x hx => h₁ x (by simp [hx])) h₂]

/-- An extension string is either empty or starts with a dot — the contract
of `mimetypes.guess_extension`, whose results always look like `".pdf"`. -/
def dotExtension (e : String) : Bool :=
  match e.data with
  | [] => true
  | c :: _ => c == '.'

theorem dotExtension_head {e : String} (he : dotExtension e = true) :
    ∀ a, e.data.head? = some a → (a != '.') = false := by
  intro a ha
  unfold dotExtension at he
  cases hdata : e.data with
  | nil => simp [hdata] at ha
  | cons c t =>
    rw [hdata] at ha he
    simp only [List.head?] at ha
    cases ha
    simpa using he

/-! ## Object storage environment and services (`app/services/upload_service.py`) -/

/-- The external collaborators observed by the upload service:
`magic.from_buffer` (MIME sniffing from content bytes),
`mimetypes.guess_extension`, and the S3 client's responses.  `putCode` and
`deleteCode` give the `HTTPStatusCode` of `put_object` / `delete_object` for
a key, and `presignOk` whether `generate_presigned_url` succeeds. -/
structure S3Env where
  sniff : List Nat → String
  guessExt : String → Option String
  putCode : String → Nat
  deleteCode : String → Nat
  presignOk : String → Bool

/-- An uploaded multipart file: client-supplied filename plus raw bytes. -/
structure UploadedFile where
  filename : String
  content : List Nat
  deriving Repr, DecidableEq

/-- Mirrors `app.schemas.FileSchema` (the value `upload_file_to_s3` returns;
`id` is filled in after the DB commit). -/
structure FileSchema where
  id : Option Nat
  path : String
  size : Nat
  mime_type : String
  original_filename : String
  processed_at : Option Nat
  contents : Option String
  deriving Repr, DecidableEq

/-- A presigned GET URL, kept structured: the object key it references, the
`ResponseContentDisposition` filename, and the `ExpiresIn` bound. -/
structure PresignedUrl where
  key : String
  dispositionFilename : String
  expiresIn : Nat
  deriving Repr, DecidableEq

/-- The S3 object key the source builds with
`f'projects/{project_id}/{uuid4()}{extension}'`. -/
def s3Key (projectId randomId : Nat) (ext : String) : String :=
  "projects/" ++ natStr projectId ++ "/" ++ natStr randomId ++ ext

/-- Distinct random ids give distinct keys, provided the extensions obey the
`mimetypes.guess_extension` contract (empty or dot-led). -/
theorem s3Key_inj {p r₁ r₂ : Nat} {e₁ e₂ : String}
    (he₁ : dotExtension e₁ = true) (he₂ : dotExtension e₂ = true)
    (h : s3Key p r₁ e₁ = s3Key p r₂ e₂) : r₁ = r₂ := by
  have hdata : ("projects/" ++ natStr p ++ "/").data ++ ((natStr r₁).data ++ e₁.data)
      = ("projects/" ++ natStr p ++ "/").data ++ ((natStr r₂).data ++ e₂.data) := by
    have := congrArg String.data h
    simpa [s3Key, String.data_append, List.append_assoc] using this
  have htail : (natStr r₁).data ++ e₁.data = (natStr r₂).data ++ e₂.data :=
    List.append_cancel_left hdata
  have htake : (natStr r₁).data = (natStr r₂).data := by
    have h₁ : List.takeWhile (fun c => c != '.') ((natStr r₁).data ++ e₁.data)
        = (natStr r₁).data :=
      takeWhile_append_block _ _ _ natStr_no_dot (dotExtension_head he₁)
    have h₂ : List.takeWhile (fun c => c != '.') ((natStr r₂).data ++ e₂.data)
        = (natStr r₂).data :=
      takeWhile_append_block _ _ _ natStr_no_dot (dotExtension_head he₂)
    rw [← h₁, ← h₂, htail]
  exact natStr_inj (String.ext htake)

/-- Mirrors `upload_file_to_s3` (upload_service.py lines 19-56): sniff the
MIME type from the content bytes, guess an extension (bad-request when
unknown), build the key from a fresh random id, `put_object`, and fail with
an internal error unless S3 answered 200. -/
def upload_file_to_s3 (env : S3Env) (projectId : Nat) (file : UploadedFile)
    (randomId : Nat) : Except HTTPException FileSchema :=
  let contents := file.content
  let mimeType := env.sniff contents
  let filesize := contents.length
  match env.guessExt mimeType with
  | none => .error ⟨400, "Unsupported file type."⟩
  | some ext =>
    let key := s3Key projectId randomId ext
    if env.putCode key = 200 then
      .ok { id := none, path := key, size := filesize, mime_type := mimeType,
            original_filename := file.filename,
            processed_at := none, contents := none }
    else
      .error ⟨500, "Failed to upload file to S3."⟩

/-- Mirrors `delete_file_from_s3` (upload_service.py lines 59-78); `none`
means success, `some e` the raised `HTTPException`. -/
def delete_file_from_s3 (env : S3Env) (filePath : String) : Option HTTPException :=
  if filePath = "" then
    some ⟨400, "No file path provided."⟩
  else if env.deleteCode filePath = 204 then
    none
  else
    some ⟨500, "Failed to delete file from S3."⟩

/-- Mirrors `get_download_url` (upload_service.py lines 81-105): presigned
GET URL for the stored key, `ExpiresIn=60`. -/
def get_download_url (env : S3Env) (filePath originalFilename : String) :
    Except HTTPException PresignedUrl :=
  if filePath = "" then
    .error ⟨400, "No file path provided."⟩
  else if env.presignOk filePath then
    .ok { key := filePath, dispositionFilename := originalFilename, expiresIn := 60 }
  else
    .error ⟨500, "Failed to generate download URL."⟩

/-! ## The access-control guard (`app/routers/projects.py` lines 64-89) -/

/-- The raised `HTTPException(404, 'Project not found.')`. -/
def projectNotFound : HTTPException :=
  ⟨404, "Project not found."⟩

/-- The SQL filter of `get_project`'s query:
`Project.organization_id == organization_id`, `Project.id == project_id`, and
`Project.organization.has(Organization.users.contains(user))`. -/
def projectQueryPred (db : DB) (userId orgId projId : Nat) (q : Project) : Bool :=
  q.organizationId == orgId && q.id == projId &&
    db.orgs.any (fun org => org.id == q.organizationId && org.userIds.contains userId)

/-- Mirrors `get_project`: run the scoped query (`session.scalar` = first
row or none), reject a soft-deleted hit when `ignore_deleted`, reject a
missing row — both with the identical 404. -/
def get_project (db : DB) (userId orgId projId : Nat) (ignoreDeleted : Bool) :
    Except HTTPException Project :=
  match db.projects.find? (projectQueryPred db userId orgId projId) with
  | some proj =>
    if ignoreDeleted && proj.deletedAt.isSome then
      .error projectNotFound
    else
      .ok proj
  | none => .error projectNotFound

/-! ## Project lifecycle endpoints (`app/routers/projects.py`) -/

/-- Mirrors `delete_project` (lines 172-181, soft delete): resolve the
project with the guard's default `ignore_deleted=True`, set `deleted_at` to
the current time, commit. -/
def delete_project (db : DB) (userId orgId projId now : Nat) :
    Except HTTPException DB :=
  match get_project db userId orgId projId true with
  | .error e => .error e
  | .ok proj =>
    .ok { db with
          projects := db.projects.map (fun q =>
            if q.id = proj.id then { q with deletedAt := some now } else q) }

/-- Outcome of a hard delete: the committed database, the S3 delete attempts
made synchronously by the route handler's loop, and the S3 delete attempts
the `before_delete` ORM hook (`delete_project_files_from_s3`, models.py
lines 112-136) schedules on the running event loop during the flush. -/
structure HardDeleteOutcome where
  db : DB
  handlerAttempts : List String
  hookScheduledAttempts : List String
  deriving Repr, DecidableEq

/-- Every object key whose deletion a hard delete attempts, handler loop and
scheduled hook task together. -/
def s3DeleteAttempts (r : HardDeleteOutcome) : List String :=
  r.handlerAttempts ++ r.hookScheduledAttempts

/-- Mirrors `hard_delete_project` (lines 184-212) together with the
`before_delete` hook: resolve with `ignore_deleted=False`; for each of the
project's files attempt `delete_file_from_s3`, catching and logging every
exception (so the outcome never depends on the S3 responses); then
`session.delete(project)` — whose flush fires the hook, which schedules one
more best-effort delete per file — and commit, the ORM cascade removing the
project's `File` rows. -/
def hard_delete_project (env : S3Env) (db : DB) (userId orgId projId : Nat) :
    Except HTTPException HardDeleteOutcome :=
  match get_project db userId orgId projId false with
  | .error e => .error e
  | .ok proj =>
    let projFiles := db.files.filter (fun f => f.projectId == proj.id)
    .ok { db := { db with
                  projects := db.projects.filter (fun q => q.id != proj.id),
                  files := db.files.filter (fun f => f.projectId != proj.id) },
          handlerAttempts := projFiles.map (fun f => f.path),
          hookScheduledAttempts := projFiles.map (fun f => f.path) }

/-! ## Multi-file upload (`app/routers/projects.py` lines 215-266) -/

/-- A `background_tasks.add_task(document_service.extract_text, download_url,
result.id, session)` call: the presigned URL, the file id, and the database
session handed to the task — the request-scoped one. -/
structure ScheduledTask where
  url : PresignedUrl
  fileId : Nat
  sessionId : Nat
  deriving Repr, DecidableEq

/-- `await asyncio.gather(*upload_tasks)`: every upload must succeed, the
first exception aborts the batch.  Random ids are consumed in order from
`fresh`. -/
def uploadFilesToS3 (env : S3Env) (projectId : Nat) :
    List UploadedFile → Nat → Except HTTPException (List FileSchema)
  | [], _ => .ok []
  | f :: rest, fresh =>
    match upload_file_to_s3 env projectId f fresh with
    | .error e => .error e
    | .ok r =>
      match uploadFilesToS3 env projectId rest (fresh + 1) with
      | .error e => .error e
      | .ok rs => .ok (r :: rs)

/-- The loop collecting `await get_download_url(result.path,
result.original_filename)` per uploaded file. -/
def getDownloadUrls (env : S3Env) :
    List FileSchema → Except HTTPException (List PresignedUrl)
  | [] => .ok []
  | r :: rs =>
    match get_download_url env r.path r.original_filename with
    | .error e => .error e
    | .ok u =>
      match getDownloadUrls env rs with
      | .error e => .error e
      | .ok us => .ok (u :: us)

/-- The `File(...)` rows built from the upload results and committed in one
batch; the DB-assigned ids are consumed in order from `base`. -/
def mkDbFiles (projectId : Nat) : List FileSchema → Nat → Nat → List DbFile
  | [], _, _ => []
  | r :: rs, base, now =>
    { id := base, path := r.path, size := r.size, mimeType := r.mime_type,
      originalFilename := r.original_filename, contents := none,
      createdAt := now, processedAt := none, projectId := projectId }
      :: mkDbFiles projectId rs (base + 1) now

/-- `result.id = db_file.id` for each result, in order. -/
def assignIds : List FileSchema → Nat → List FileSchema
  | [], _ => []
  | r :: rs, base => { r with id := some base } :: assignIds rs (base + 1)

/-- The scheduling loop: for each `(result, download_url)` pair, schedule the
extraction task when `result and result.id and result.mime_type ==
'application/pdf'`. -/
def scheduleTasks (sessionId : Nat) :
    List FileSchema → List PresignedUrl → List ScheduledTask
  | r :: rs, u :: us =>
    match r.id with
    | some i =>
      if r.mime_type = "application/pdf" then
        { url := u, fileId := i, sessionId := sessionId }
          :: scheduleTasks sessionId rs us
      else
        scheduleTasks sessionId rs us
    | none => scheduleTasks sessionId rs us
  | _, _ => []

/-- What the upload endpoint produces: the response payload, the committed
database, and the scheduled background tasks. -/
structure UploadOutcome where
  results : List FileSchema
  db : DB
  tasks : List ScheduledTask
  deriving Repr, DecidableEq

/-- Mirrors the `upload` endpoint: guard, parallel S3 uploads (fresh random
ids from `fresh`), download URLs, batch insert of `File` rows (ids from
`fresh + files.length`), id back-fill, and background-task scheduling with
the request-scoped session `sessionId`. -/
def upload (env : S3Env) (db : DB) (userId orgId projId : Nat)
    (files : List UploadedFile) (fresh sessionId now : Nat) :
    Except HTTPException UploadOutcome :=
  match get_project db userId orgId projId true with
  | .error e => .error e
  | .ok _ =>
    match uploadFilesToS3 env projId files fresh with
    | .error e => .error e
    | .ok results =>
      match getDownloadUrls env results with
      | .error e => .error e
      | .ok urls =>
        let base := fresh + files.length
        let newRows := mkDbFiles projId results base now
        let results2 := assignIds results base
        .ok { results := results2,
              db := { db with files := db.files ++ newRows },
              tasks := scheduleTasks sessionId results2 urls }

/-! ## Batch file delete (`app/routers/projects.py` lines 269-312) -/

/-- `await asyncio.gather(*[delete_file_from_s3(file.path) ...])` without
`return_exceptions`: the first raised exception propagates. -/
def firstDeleteError (env : S3Env) : List DbFile → Option HTTPException
  | [] => none
  | f :: rest =>
    match delete_file_from_s3 env f.path with
    | some e => some e
    | none => firstDeleteError env rest

/-- Mirrors the `delete_file` endpoint, in state-passing style: a raised
`HTTPException` aborts the request before `session.commit()`, so the
database component is returned unchanged alongside the error. -/
def delete_file (env : S3Env) (db : DB) (userId orgId projId : Nat)
    (ids : List Nat) : DB × Option HTTPException :=
  match get_project db userId orgId projId true with
  | .error e => (db, some e)
  | .ok _ =>
    if ids.isEmpty then
      (db, some ⟨400, "No file IDs provided."⟩)
    else
      let ids2 := ids.dedup
      let dbFiles := db.files.filter
        (fun f => ids2.contains f.id && f.projectId == projId)
      if dbFiles.isEmpty then
        (db, some ⟨404, "No files found in database"⟩)
      else
        match firstDeleteError env dbFiles with
        | some e => (db, some e)
        | none =>
          let remaining := db.files.filter
            (fun f => !(ids2.contains f.id && f.projectId == projId))
          ({ db with files := remaining }, none)

/-! ## File reads and download URLs (`app/routers/projects.py` lines 315-364) -/

/-- The raised `HTTPException(404, 'File not found.')`. -/
def fileNotFound : HTTPException :=
  ⟨404, "File not found."⟩

/-- The query shared by the file endpoints:
`File.id == file_id, File.project_id == project_id`. -/
def findProjectFile (db : DB) (projId fileId : Nat) : Option DbFile :=
  db.files.find? (fun f => f.id == fileId && f.projectId == projId)

/-- Mirrors the `read_file` endpoint: guard, then look the file up in the
project, 404 when absent. -/
def read_file (db : DB) (userId orgId projId fileId : Nat) :
    Except HTTPException DbFile :=
  match get_project db userId orgId projId true with
  | .error e => .error e
  | .ok _ =>
    match findProjectFile db projId fileId with
    | none => .error fileNotFound
    | some f => .ok f

/-- Mirrors the `download_file` endpoint: guard, find the file, return the
presigned URL of the stored `path`. -/
def download_file (env : S3Env) (db : DB) (userId orgId projId fileId : Nat) :
    Except HTTPException PresignedUrl :=
  match get_project db userId orgId projId true with
  | .error e => .error e
  | .ok _ =>
    match findProjectFile db projId fileId with
    | none => .error fileNotFound
    | some f => get_download_url env f.path f.originalFilename

/-! ## Background text extraction (`app/services/document_service.py`) -/

/-- What the outbound POST to the extraction service can produce, as the
task observes it: a body on 2xx, or a raised exception (`raise_for_status`
on non-2xx, timeout, network error). -/
inductive ExtractionResponse where
  | ok (body : String)
  | httpError
  deriving Repr, DecidableEq

/-- Result of running the background task: the database as the task left it
and whether an exception escaped the task. -/
structure TaskOutcome where
  db : DB
  raised : Bool
  deriving Repr, DecidableEq

/-- Mirrors `extract_text` (document_service.py lines 14-37): POST the
document URL; on failure the exception escapes before any mutation; on
success `session.get(File, file_id)` on the session that was passed in,
then set `contents` and `processed_at` together and commit. -/
def extract_text (svc : PresignedUrl → ExtractionResponse) (url : PresignedUrl)
    (fileId sessionId : Nat) (db : DB) (now : Nat) : TaskOutcome :=
  match svc url with
  | .httpError => { db := db, raised := true }
  | .ok body =>
    match db.files.find? (fun f => f.id == fileId) with
    | none => { db := db, raised := false }
    | some _ =>
      { db := { db with files := db.files.map (fun f =>
          if f.id = fileId then
            { f with contents := some body, processedAt := some now }
          else f) },
        raised := false }

/-- Starlette's background-task runner: the scheduled tasks run sequentially
after the response is sent; a task that raises stops the remaining ones, and
nothing is reported to the HTTP caller. -/
def runTasks (svc : PresignedUrl → ExtractionResponse) (now : Nat) :
    DB → List ScheduledTask → DB
  | db, [] => db
  | db, t :: rest =>
    let r := extract_text svc t.url t.fileId t.sessionId db now
    if r.raised then r.db else runTasks svc now r.db rest

/-- A whole upload request as the client and the database observe it: the
HTTP response is fixed by `upload` before any background task runs, then the
scheduled tasks run. -/
def handle_upload (env : S3Env) (svc : PresignedUrl → ExtractionResponse)
    (db : DB) (userId orgId projId : Nat) (files : List UploadedFile)
    (fresh sessionId now taskNow : Nat) :
    Except HTTPException (List FileSchema) × DB :=
  match upload env db userId orgId projId files fresh sessionId now with
  | .error e => (.error e, db)
  | .ok r => (.ok r.results, runTasks svc taskNow r.db r.tasks)

/-! ## Bounding-box extraction (`app/routers/projects.py` lines 367-446) -/

/-- Preference lookup, as the dict comprehension over the
`system_prompt` / `assistant_prompt` query builds it. -/
def prefLookup (db : DB) (k : String) : Option String :=
  (db.preferences.find? (fun pr => pr.key == k)).map (fun pr => pr.value)

/-- The external Gemini AI collaborator:
`extract_bounding_boxes(image_url, document_contents, system_prompt,
assistant_prompt)`, already serialized the way `json.dumps` stores it. -/
def AiOracle : Type :=
  PresignedUrl → List (String × String) → String → String → String

/-- Mirrors the `extract_bounding_boxes` endpoint: guard, find the image
file, require an image MIME type, presign, collect processed PDF documents,
call the AI service (a missing preference key raises `KeyError`, surfacing
as a 500), then set the image file's `contents` and `processed_at` together
and commit. -/
def extract_bounding_boxes (env : S3Env) (ai : AiOracle) (db : DB)
    (userId orgId projId fileId now : Nat) :
    Except HTTPException (DB × String) :=
  match get_project db userId orgId projId true with
  | .error e => .error e
  | .ok _ =>
    match findProjectFile db projId fileId with
    | none => .error fileNotFound
    | some imageFile =>
      if !(List.isPrefixOf "image".data imageFile.mimeType.data) then
        .error ⟨400, "File is not an image."⟩
      else
        match get_download_url env imageFile.path imageFile.originalFilename with
        | .error e => .error e
        | .ok url =>
          let documents := db.files.filter (fun f =>
            f.projectId == projId && f.mimeType == "application/pdf"
              && f.processedAt.isSome)
          if documents.isEmpty then
            .error ⟨400, "No PDF documents found in project."⟩
          else
            let documentContents := documents.filterMap (fun d =>
              d.contents.map (fun c => (d.originalFilename, c)))
            match prefLookup db "system_prompt", prefLookup db "assistant_prompt" with
            | some sp, some ap =>
              let boxes := ai url documentContents sp ap
              let db2 := { db with files := db.files.map (fun f =>
                if f.id = fileId then
                  { f with contents := some boxes, processedAt := some now }
                else f) }
              .ok (db2, boxes)
            | _, _ => .error ⟨500, "KeyError"⟩

/-! ## The contents / processed_at invariant -/

/-- The pairing invariant on a `File` row: extracted `contents` and the
`processed_at` stamp are set together. -/
def fileInvariant (f : DbFile) : Prop :=
  f.contents.isSome ↔ f.processedAt.isSome

/-- The invariant over every `File` row of the database. -/
def dbInvariant (db : DB) : Prop :=
  ∀ f ∈ db.files, fileInvariant f

instance (f : DbFile) : Decidable (fileInvariant f) := by
  unfold fileInvariant; infer_instance

instance (db : DB) : Decidable (dbInvariant db) := by
  unfold dbInvariant; infer_instance

/-! ## Concrete fixtures used by witnesses and counterexamples -/

/-- An environment in which every S3 call succeeds and everything sniffs as
PDF. -/
def okPdfEnv : S3Env :=
  { sniff := fun _ => "application/pdf",
    guessExt := fun _ => some ".pdf",
    putCode := fun _ => 200,
    deleteCode := fun _ => 204,
    presignOk := fun _ => true }

/-- An environment in which every S3 delete fails with a 500. -/
def failDeleteEnv : S3Env :=
  { sniff := fun _ => "application/pdf",
    guessExt := fun _ => some ".pdf",
    putCode := fun _ => 200,
    deleteCode := fun _ => 500,
    presignOk := fun _ => true }

/-- Organization 1 with member user 5. -/
def sampleOrg : Organization :=
  { id := 1, name := "Default", userIds := [5] }

/-- Active project 2 inside organization 1. -/
def sampleProject : Project :=
  { id := 2, name := "P1", description := "d", createdAt := 10,
    deletedAt := none, organizationId := 1 }

/-- An already processed PDF file row in project 2. -/
def samplePdfRow : DbFile :=
  { id := 30, path := "projects/2/30.pdf", size := 4,
    mimeType := "application/pdf", originalFilename := "doc.pdf",
    contents := some "extracted", createdAt := 11, processedAt := some 12,
    projectId := 2 }

/-- An unprocessed image file row in project 2. -/
def sampleImageRow : DbFile :=
  { id := 31, path := "projects/2/31.png", size := 9,
    mimeType := "image/png", originalFilename := "pic.png",
    contents := none, createdAt := 11, processedAt := none,
    projectId := 2 }

/-- A database holding the sample organization, project and files. -/
def sampleDb : DB :=
  { orgs := [sampleOrg], projects := [sampleProject],
    files := [samplePdfRow, sampleImageRow],
    preferences := [⟨"system_prompt", "sp"⟩, ⟨"assistant_prompt", "ap"⟩] }

/-- The same database with project 2 soft-deleted. -/
def sampleDbDeleted : DB :=
  { sampleDb with projects := [{ sampleProject with deletedAt := some 40 }] }

/-- A PDF upload payload. -/
def samplePdfUpload : UploadedFile :=
  { filename := "a.pdf", content := [37, 80, 68, 70] }

/-! ## Guard lemmas -/

theorem get_project_error_eq {db : DB} {u o p : Nat} {ig : Bool}
    {e : HTTPException} (h : get_project db u o p ig = .error e) :
    e = projectNotFound := by
  unfold get_project at h
  cases hf : db.projects.find? (projectQueryPred db u o p) with
  | none => simp [hf, projectNotFound] at h; simp [projectNotFound, h]
  | some proj =>
    rw [hf] at h
    cases hb : ig && proj.deletedAt.isSome with
    | true => simp [hb, projectNotFound] at h; simp [projectNotFound, h]
    | false => simp [hb] at h

theorem get_project_ok {db : DB} {u o p : Nat} {ig : Bool} {proj : Project}
    (h : get_project db u o p ig = .ok proj) :
    proj ∈ db.projects ∧ projectQueryPred db u o p proj = true ∧
      (ig = true → proj.deletedAt = none) := by
  unfold get_project at h
  cases hf : db.projects.find? (projectQueryPred db u o p) with
  | none => rw [hf] at h; cases h
  | some q =>
    rw [hf] at h
    cases hb : ig && q.deletedAt.isSome with
    | true => simp [hb] at h
    | false =>
      simp only [hb, Bool.false_eq_true, if_false, Except.ok.injEq] at h
      subst h
      refine ⟨List.mem_of_find?_eq_some hf, List.find?_some hf, ?_⟩
      intro hig
      rw [hig, Bool.true_and] at hb
      exact Option.not_isSome_iff_eq_none.mp (by simp [hb])

theorem projectQueryPred_id {db : DB} {u o p : Nat} {q : Project}
    (h : projectQueryPred db u o p q = true) : q.id = p := by
  unfold projectQueryPred at h
  simp only [Bool.and_eq_true, beq_iff_eq] at h
  exact h.1.2

theorem projectQueryPred_org {db : DB} {u o p : Nat} {q : Project}
    (h : projectQueryPred db u o p q = true) : q.organizationId = o := by
  unfold projectQueryPred at h
  simp only [Bool.and_eq_true, beq_iff_eq] at h
  exact h.1.1

theorem projectQueryPred_member {db : DB} {u o p : Nat} {q : Project}
    (h : projectQueryPred db u o p q = true) :
    ∃ org ∈ db.orgs, org.id = q.organizationId ∧ u ∈ org.userIds := by
  unfold projectQueryPred at h
  simp only [Bool.and_eq_true, List.any_eq_true, beq_iff_eq] at h
  obtain ⟨org, horg, hid, hmem⟩ := h.2
  exact ⟨org, horg, hid, by simpa using hmem⟩

/-- When every project matching the query is soft-deleted (in particular
when none matches), the guard with the default `ignore_deleted=True` raises
the uniform 404. -/
theorem get_project_error_of_deleted {db : DB} {u o p : Nat}
    (h : ∀ q ∈ db.projects, projectQueryPred db u o p q = true →
      q.deletedAt.isSome) :
    get_project db u o p true = .error projectNotFound := by
  unfold get_project
  cases hf : db.projects.find? (projectQueryPred db u o p) with
  | none => rfl
  | some q =>
    have hq : q.deletedAt.isSome :=
      h q (List.mem_of_find?_eq_some hf) (List.find?_some hf)
    simp [hq]

/-- When no project satisfies the query at all, the guard raises the
uniform 404 for either value of `ignore_deleted`. -/
theorem get_project_error_of_none {db : DB} {u o p : Nat} {ig : Bool}
    (h : ∀ q ∈ db.projects, ¬ projectQueryPred db u o p q = true) :
    get_project db u o p ig = .error projectNotFound := by
  unfold get_project
  rw [List.find?_eq_none.mpr h]

/-- C4. The guard's three failure modes — wrong organization, an
organization the user is not a member of, and soft-deleted while deleted
projects are excluded — and plain nonexistence all produce the very same
`HTTPException(404, 'Project not found.')`: (1) every error the guard ever
raises is that value; (2) nonexistence raises it; (3) a project id held by a
different organization raises it; (4) membership failure raises it; (5) a
soft-deleted project raises it under the default `ignore_deleted=True`. -/
theorem guard_uniform_not_found (db : DB) (u o p : Nat) (ig : Bool) :
    (∀ e, get_project db u o p ig = .error e → e = projectNotFound) ∧
    ((∀ q ∈ db.projects, q.id ≠ p) →
      get_project db u o p ig = .error projectNotFound) ∧
    ((∀ q ∈ db.projects, q.id = p → q.organizationId ≠ o) →
      get_project db u o p ig = .error projectNotFound) ∧
    ((∀ q ∈ db.projects, q.id = p → ∀ org ∈ db.orgs,
        org.id = q.organizationId → u ∉ org.userIds) →
      get_project db u o p ig = .error projectNotFound) ∧
    ((∀ q ∈ db.projects, q.id = p → q.deletedAt.isSome) →
      get_project db u o p true = .error projectNotFound) := by
  refine ⟨fun e he => get_project_error_eq he, ?_, ?_, ?_, ?_⟩
  · intro h
    refine get_project_error_of_none (fun q hq hpred => ?_)
    exact h q hq (projectQueryPred_id hpred)
  · intro h
    refine get_project_error_of_none (fun q hq hpred => ?_)
    exact h q hq (projectQueryPred_id hpred) (projectQueryPred_org hpred)
  · intro h
    refine get_project_error_of_none (fun q hq hpred => ?_)
    obtain ⟨org, horg, hid, hmem⟩ := projectQueryPred_member hpred
    exact h q hq (projectQueryPred_id hpred) org horg hid hmem
  · intro h
    exact get_project_error_of_deleted
      (fun q hq hpred => h q hq (projectQueryPred_id hpred))

/-- Witness for C4 at concrete inputs: a database whose only project has
id 2 in organization 9 (wrong organization for the request), and the sample
database with project 2 soft-deleted. -/
theorem guard_uniform_not_found_witness :
    (get_project { orgs := [sampleOrg],
                   projects := [{ sampleProject with organizationId := 9 }],
                   files := [], preferences := [] } 5 1 2 true
      = .error projectNotFound) ∧
    (get_project sampleDbDeleted 5 1 2 true = .error projectNotFound) ∧
    (get_project sampleDb 5 1 7 true = .error projectNotFound) := by
  refine ⟨?_, ?_, ?_⟩
  · exact (guard_uniform_not_found _ 5 1 2 true).2.2.1 (by decide)
  · exact (guard_uniform_not_found sampleDbDeleted 5 1 2 true).2.2.2.2 (by decide)
  · exact (guard_uniform_not_found sampleDb 5 1 7 true).2.1 (by decide)

/-! ## C7: soft delete -/

/-- C7. Soft-deleting an accessible project only stamps `deleted_at`: the
committed database keeps the very same row with `deleted_at = now` and every
other field intact, keeps every other project untouched, leaves files,
organizations and preferences exactly as they were, and a second soft-delete
of the same project answers the uniform 404 because the guard excludes
deleted projects by default. -/
theorem soft_delete_frame (db : DB) (u o p now now2 : Nat) (proj : Project)
    (h : get_project db u o p true = .ok proj) :
    ∃ db2, delete_project db u o p now = .ok db2 ∧
      { proj with deletedAt := some now } ∈ db2.projects ∧
      (∀ q ∈ db.projects, q.id ≠ proj.id → q ∈ db2.projects) ∧
      db2.projects.length = db.projects.length ∧
      db2.files = db.files ∧ db2.orgs = db.orgs ∧
      db2.preferences = db.preferences ∧
      delete_project db2 u o p now2 = .error projectNotFound := by
  obtain ⟨hmem, hpred, hactive⟩ := get_project_ok h
  have hid : proj.id = p := projectQueryPred_id hpred
  refine ⟨{ db with projects := db.projects.map (fun q =>
      if q.id = proj.id then { q with deletedAt := some now } else q) },
    ?_, ?_, ?_, ?_, rfl, rfl, rfl, ?_⟩
  · unfold delete_project
    rw [h]
  · exact List.mem_map.mpr ⟨proj, hmem, by simp⟩
  · intro q hq hne
    exact List.mem_map.mpr ⟨q, hq, by simp [if_neg hne]⟩
  · exact List.length_map _ _
  · have hdel : ∀ q ∈ db.projects.map (fun q =>
        if q.id = proj.id then { q with deletedAt := some now } else q),
        projectQueryPred { db with projects := db.projects.map (fun q =>
          if q.id = proj.id then { q with deletedAt := some now } else q) }
          u o p q = true → q.deletedAt.isSome := by
      intro q hq hqpred
      have hqid : q.id = p := projectQueryPred_id hqpred
      simp only [List.mem_map] at hq
      obtain ⟨q0, _, hq0⟩ := hq
      by_cases hc : q0.id = proj.id
      · rw [if_pos hc] at hq0
        rw [← hq0]
        simp
      · rw [if_neg hc] at hq0
        subst hq0
        exact absurd (hqid.trans hid.symm) hc
    unfold delete_project
    rw [get_project_error_of_deleted hdel]

/-- Witness for C7: soft-deleting the sample project. -/
theorem soft_delete_frame_witness :
    ∃ db2, delete_project sampleDb 5 1 2 40 = .ok db2 ∧
      { sampleProject with deletedAt := some 40 } ∈ db2.projects ∧
      (∀ q ∈ sampleDb.projects, q.id ≠ sampleProject.id → q ∈ db2.projects) ∧
      db2.projects.length = sampleDb.projects.length ∧
      db2.files = sampleDb.files ∧ db2.orgs = sampleDb.orgs ∧
      db2.preferences = sampleDb.preferences ∧
      delete_project db2 5 1 2 41 = .error projectNotFound :=
  soft_delete_frame sampleDb 5 1 2 40 41 sampleProject (by decide)

/-! ## C10: files of a soft-deleted project are unreachable -/

/-- C10. When every project with the addressed id is soft-deleted, each
file-scoped endpoint — metadata read, download-URL issuance, batch delete,
bounding-box extraction — answers the uniform `404 Project not found.`
before touching any file, because each resolves the project first with
deleted projects excluded; the batch-delete endpoint also leaves the
database untouched. -/
theorem deleted_project_hides_files (env : S3Env) (ai : AiOracle) (db : DB)
    (u o p fileId now : Nat) (ids : List Nat)
    (h : ∀ q ∈ db.projects, q.id = p → q.deletedAt.isSome) :
    read_file db u o p fileId = .error projectNotFound ∧
    download_file env db u o p fileId = .error projectNotFound ∧
    delete_file env db u o p ids = (db, some projectNotFound) ∧
    extract_bounding_boxes env ai db u o p fileId now
      = .error projectNotFound := by
  have hguard : get_project db u o p true = .error projectNotFound :=
    get_project_error_of_deleted
      (fun q hq hpred => h q hq (projectQueryPred_id hpred))
  refine ⟨?_, ?_, ?_, ?_⟩
  · unfold read_file; rw [hguard]
  · unfold download_file; rw [hguard]
  · unfold delete_file; rw [hguard]
  · unfold extract_bounding_boxes; rw [hguard]

/-- Witness for C10: the sample database with project 2 soft-deleted, a
trivial AI oracle, and file 30 (which does exist in the project). -/
theorem deleted_project_hides_files_witness :
    read_file sampleDbDeleted 5 1 2 30 = .error projectNotFound ∧
    download_file okPdfEnv sampleDbDeleted 5 1 2 30 = .error projectNotFound ∧
    delete_file okPdfEnv sampleDbDeleted 5 1 2 [30]
      = (sampleDbDeleted, some projectNotFound) ∧
    extract_bounding_boxes okPdfEnv (fun _ _ _ _ => "[]") sampleDbDeleted
      5 1 2 30 99 = .error projectNotFound :=
  deleted_project_hides_files okPdfEnv (fun _ _ _ _ => "[]") sampleDbDeleted
    5 1 2 30 99 [30] (by decide)

/-! ## C8: the download URL references the stored key -/

/-- C8. Whenever the download endpoint succeeds, the presigned URL it
returns references exactly the object key stored in the found File row's
`path` (with the row's original filename as disposition), and its validity
is the constant 60-second bound passed as `ExpiresIn`. -/
theorem download_url_matches_path (env : S3Env) (db : DB)
    (u o p fileId : Nat) (url : PresignedUrl)
    (h : download_file env db u o p fileId = .ok url) :
    ∃ f, findProjectFile db p fileId = some f ∧
      f.id = fileId ∧ f.projectId = p ∧
      url.key = f.path ∧ url.dispositionFilename = f.originalFilename ∧
      url.expiresIn = 60 := by
  unfold download_file at h
  cases hg : get_project db u o p true with
  | error e => rw [hg] at h; cases h
  | ok proj =>
    rw [hg] at h
    cases hf : findProjectFile db p fileId with
    | none => rw [hf] at h; cases h
    | some f =>
      rw [hf] at h
      dsimp only at h
      have hpred := List.find?_some hf
      simp only [Bool.and_eq_true, beq_iff_eq] at hpred
      refine ⟨f, rfl, hpred.1, hpred.2, ?_⟩
      unfold get_download_url at h
      by_cases hempty : f.path = ""
      · rw [if_pos hempty] at h; cases h
      · rw [if_neg hempty] at h
        cases hp : env.presignOk f.path with
        | false => simp [hp] at h
        | true =>
          simp only [hp, if_true] at h
          cases h
          exact ⟨rfl, rfl, rfl⟩

/-- Witness for C8: downloading file 30 of the sample project. -/
theorem download_url_matches_path_witness :
    ∃ f, findProjectFile sampleDb 2 30 = some f ∧
      f.id = 30 ∧ f.projectId = 2 ∧
      (PresignedUrl.mk "projects/2/30.pdf" "doc.pdf" 60).key = f.path ∧
      (PresignedUrl.mk "projects/2/30.pdf" "doc.pdf" 60).dispositionFilename
        = f.originalFilename ∧
      (PresignedUrl.mk "projects/2/30.pdf" "doc.pdf" 60).expiresIn = 60 :=
  download_url_matches_path okPdfEnv sampleDb 5 1 2 30 _ (by decide)

/-! ## C6: a failing extraction leaves the row and the caller untouched -/

/-- C6. When the outbound extraction call fails (non-2xx, timeout, network
error), the background task leaves the database — in particular the File
row, whose `processed_at` stays null — exactly as it was, the exception
staying inside the task; and the HTTP response of the upload request is
fixed before any task runs: it is identical under any two extraction
services, so no extraction error ever reaches an HTTP caller. -/
theorem extraction_failure_isolated :
    (∀ (svc : PresignedUrl → ExtractionResponse) (url : PresignedUrl)
        (fileId sessionId : Nat) (db : DB) (now : Nat),
      svc url = .httpError →
      extract_text svc url fileId sessionId db now = ⟨db, true⟩) ∧
    (∀ (env : S3Env) (svc₁ svc₂ : PresignedUrl → ExtractionResponse)
        (db : DB) (u o p : Nat) (files : List UploadedFile)
        (fresh sessionId now t₁ t₂ : Nat),
      (handle_upload env svc₁ db u o p files fresh sessionId now t₁).1
        = (handle_upload env svc₂ db u o p files fresh sessionId now t₂).1) := by
  constructor
  · intro svc url fileId sessionId db now hfail
    unfold extract_text
    rw [hfail]
  · intro env svc₁ svc₂ db u o p files fresh sessionId now t₁ t₂
    unfold handle_upload
    cases upload env db u o p files fresh sessionId now <;> rfl

/-- Witness for C6: a service that always fails, applied to a concrete
database: the task returns the database unchanged with the exception
flagged. -/
theorem extraction_failure_isolated_witness :
    extract_text (fun _ => .httpError)
      (PresignedUrl.mk "projects/2/30.pdf" "doc.pdf" 60) 30 7 sampleDb 99
      = ⟨sampleDb, true⟩ :=
  extraction_failure_isolated.1 (fun _ => .httpError)
    (PresignedUrl.mk "projects/2/30.pdf" "doc.pdf" 60) 30 7 sampleDb 99 rfl

/-! ## C9: the background task's session -/

/-- Every task the scheduling loop emits carries the session it was given. -/
theorem scheduleTasks_sessionId (sessionId : Nat) :
    ∀ (rs : List FileSchema) (us : List PresignedUrl),
      ∀ t ∈ scheduleTasks sessionId rs us, t.sessionId = sessionId := by
  intro rs
  induction rs with
  | nil => intro us t ht; simp [scheduleTasks] at ht
  | cons r rest ih =>
    intro us t ht
    cases us with
    | nil => simp [scheduleTasks] at ht
    | cons u us' =>
      unfold scheduleTasks at ht
      cases hid : r.id with
      | none => rw [hid] at ht; exact ih us' t ht
      | some i =>
        rw [hid] at ht
        dsimp only at ht
        by_cases hm : r.mime_type = "application/pdf"
        · rw [if_pos hm] at ht
          rcases List.mem_cons.mp ht with hh | hh
          · rw [hh]
          · exact ih us' t hh
        · rw [if_neg hm] at ht
          exact ih us' t ht

/-- C9 counterexample. Uploading one PDF into the sample project from a
request whose database session is `7` schedules exactly one extraction task,
and that task carries session `7` — the request-scoped session object passed
to `background_tasks.add_task` — not a connection of its own.  The claim
that the task never reuses the request-scoped session is false at this
input. -/
theorem task_reuses_request_session_counterexample :
    (upload okPdfEnv sampleDb 5 1 2 [samplePdfUpload] 100 7 50).map
      (fun r => r.tasks.map (fun t => t.sessionId)) = .ok [7] := by
  decide

/-- C9 amended: the background text-extraction task is scheduled with — and
therefore reuses — the request-scoped database session; every task emitted
by the upload endpoint carries exactly the session of the enclosing
request. -/
theorem task_reuses_request_session (env : S3Env) (db : DB)
    (u o p : Nat) (files : List UploadedFile) (fresh sessionId now : Nat)
    (r : UploadOutcome)
    (h : upload env db u o p files fresh sessionId now = .ok r) :
    ∀ t ∈ r.tasks, t.sessionId = sessionId := by
  unfold upload at h
  cases hg : get_project db u o p true with
  | error e => rw [hg] at h; cases h
  | ok proj =>
    rw [hg] at h
    cases hu : uploadFilesToS3 env p files fresh with
    | error e => rw [hu] at h; cases h
    | ok results =>
      rw [hu] at h
      dsimp only at h
      cases hd : getDownloadUrls env results with
      | error e => rw [hd] at h; cases h
      | ok urls =>
        rw [hd] at h
        cases h
        exact scheduleTasks_sessionId sessionId _ urls

/-- The outcome of uploading one PDF into the sample project from the
request with session 7. -/
def sampleSingleUploadOutcome : UploadOutcome :=
  { results := [{ id := some 101, path := "projects/2/100.pdf", size := 4,
                  mime_type := "application/pdf", original_filename := "a.pdf",
                  processed_at := none, contents := none }],
    db := { sampleDb with files := sampleDb.files ++
        [{ id := 101, path := "projects/2/100.pdf", size := 4,
           mimeType := "application/pdf", originalFilename := "a.pdf",
           contents := none, createdAt := 50, processedAt := none,
           projectId := 2 }] },
    tasks := [⟨⟨"projects/2/100.pdf", "a.pdf", 60⟩, 101, 7⟩] }

/-- Witness for the amended C9 at the counterexample's concrete input: the
one scheduled task carries the request's session 7. -/
theorem task_reuses_request_session_witness :
    (ScheduledTask.mk ⟨"projects/2/100.pdf", "a.pdf", 60⟩ 101 7).sessionId = 7 :=
  task_reuses_request_session okPdfEnv sampleDb 5 1 2 [samplePdfUpload]
    100 7 50 sampleSingleUploadOutcome (by decide)
    (ScheduledTask.mk ⟨"projects/2/100.pdf", "a.pdf", 60⟩ 101 7) (by decide)

/-! ## C1: hard delete -/

/-- C1 counterexample. Hard-deleting the sample project, which holds N = 2
files, under an S3 environment in which every delete fails: the operation
succeeds and both the Project row and the File rows are gone, but the
object-storage delete is attempted 4 = 2N times — twice per file, once in
the route handler's loop and once more in the task the `before_delete` ORM
hook schedules — not "exactly N times" as claimed. -/
theorem hard_delete_attempts_counterexample :
    (hard_delete_project failDeleteEnv sampleDb 5 1 2).map
        (fun r => ((s3DeleteAttempts r).length, r.db.projects, r.db.files))
      = .ok (4, [], []) ∧
    sampleDb.files.length = 2 ∧ ¬(4 = 2) := by
  refine ⟨by decide, by decide, by decide⟩

/-- C1 amended. Hard-deleting a project with N files attempts the
object-storage delete 2N times — the handler attempts each file's key once
and the `before_delete` hook schedules one more attempt per key — and the
outcome is entirely independent of the S3 responses (every exception is
caught and logged), so even when all deletes fail the Project row and every
one of its File rows are absent from the committed database. -/
theorem hard_delete_best_effort (env : S3Env) (db : DB) (u o p : Nat)
    (r : HardDeleteOutcome)
    (h : hard_delete_project env db u o p = .ok r) :
    (∀ env2 : S3Env, hard_delete_project env2 db u o p = .ok r) ∧
    r.handlerAttempts
      = (db.files.filter (fun f => f.projectId == p)).map (fun f => f.path) ∧
    r.hookScheduledAttempts = r.handlerAttempts ∧
    (s3DeleteAttempts r).length
      = 2 * (db.files.filter (fun f => f.projectId == p)).length ∧
    (∀ q ∈ r.db.projects, q.id ≠ p) ∧
    (∀ f ∈ r.db.files, f.projectId ≠ p) := by
  unfold hard_delete_project at h
  cases hg : get_project db u o p false with
  | error e => rw [hg] at h; cases h
  | ok proj =>
    rw [hg] at h
    dsimp only at h
    have hid : proj.id = p := projectQueryPred_id (get_project_ok hg).2.1
    rw [hid] at h
    cases h
    refine ⟨?_, rfl, rfl, ?_, ?_, ?_⟩
    · intro env2
      unfold hard_delete_project
      rw [hg]
      dsimp only
      rw [hid]
    · simp [s3DeleteAttempts]
      ring
    · intro q hq
      have := List.of_mem_filter hq
      simpa [hid] using this
    · intro f hf
      have := List.of_mem_filter hf
      simpa [hid] using this

/-- Witness for the amended C1 at the counterexample input, N = 2. -/
theorem hard_delete_best_effort_witness :
    (∀ env2 : S3Env, hard_delete_project env2 sampleDb 5 1 2
      = .ok ⟨{ sampleDb with projects := [], files := [] },
             ["projects/2/30.pdf", "projects/2/31.png"],
             ["projects/2/30.pdf", "projects/2/31.png"]⟩) ∧
    (["projects/2/30.pdf", "projects/2/31.png"] : List String)
      = (sampleDb.files.filter (fun f => f.projectId == 2)).map
          (fun f => f.path) ∧
    (["projects/2/30.pdf", "projects/2/31.png"] : List String)
      = ["projects/2/30.pdf", "projects/2/31.png"] ∧
    (s3DeleteAttempts ⟨{ sampleDb with projects := [], files := [] },
        ["projects/2/30.pdf", "projects/2/31.png"],
        ["projects/2/30.pdf", "projects/2/31.png"]⟩).length
      = 2 * (sampleDb.files.filter (fun f => f.projectId == 2)).length ∧
    (∀ q ∈ ({ sampleDb with projects := [], files := [] } : DB).projects,
      q.id ≠ 2) ∧
    (∀ f ∈ ({ sampleDb with projects := [], files := [] } : DB).files,
      f.projectId ≠ 2) :=
  hard_delete_best_effort failDeleteEnv sampleDb 5 1 2 _ (by decide)

/-! ## C3: batch file delete aborts on the first storage failure -/

/-- The first exception out of the gathered `delete_file_from_s3` calls
comes from one of the files, and it exists as soon as any call fails. -/
theorem firstDeleteError_spec (env : S3Env) :
    ∀ l : List DbFile, (∃ f ∈ l, delete_file_from_s3 env f.path ≠ none) →
      ∃ e, firstDeleteError env l = some e ∧
        ∃ f ∈ l, delete_file_from_s3 env f.path = some e := by
  intro l
  induction l with
  | nil => rintro ⟨f, hf, _⟩; cases hf
  | cons g rest ih =>
    rintro ⟨f, hf, hferr⟩
    cases hg : delete_file_from_s3 env g.path with
    | some e =>
      exact ⟨e, by simp [firstDeleteError, hg], g, List.mem_cons_self g rest, hg⟩
    | none =>
      rcases List.mem_cons.mp hf with rfl | hmem
      · exact absurd hg hferr
      · obtain ⟨e, he, f2, hf2, hf2err⟩ := ih ⟨f, hmem, hferr⟩
        exact ⟨e, by simp [firstDeleteError, hg, he], f2,
          List.mem_cons_of_mem g hf2, hf2err⟩

/-- C3. In the batch file-delete endpoint, when any single storage delete
among the matched files raises, the whole operation aborts with that
raised exception and the database is returned exactly unchanged — every
matched File row is still present. -/
theorem batch_delete_aborts_on_failure (env : S3Env) (db : DB)
    (u o p : Nat) (ids : List Nat) (proj : Project)
    (hguard : get_project db u o p true = .ok proj)
    (hne : ids.isEmpty = false)
    (hmatch : (db.files.filter
      (fun f => (ids.dedup).contains f.id && f.projectId == p)).isEmpty = false)
    (hfail : ∃ f ∈ db.files.filter
        (fun f => (ids.dedup).contains f.id && f.projectId == p),
      delete_file_from_s3 env f.path ≠ none) :
    ∃ e, (∃ f ∈ db.files.filter
            (fun f => (ids.dedup).contains f.id && f.projectId == p),
          delete_file_from_s3 env f.path = some e) ∧
      delete_file env db u o p ids = (db, some e) ∧
      ∀ f ∈ db.files.filter
          (fun f => (ids.dedup).contains f.id && f.projectId == p),
        f ∈ (delete_file env db u o p ids).1.files := by
  obtain ⟨e, he, f2, hf2, hf2err⟩ := firstDeleteError_spec env _ hfail
  have hdel : delete_file env db u o p ids = (db, some e) := by
    unfold delete_file
    rw [hguard]
    dsimp only
    rw [hne]
    simp only [Bool.false_eq_true, if_false]
    rw [hmatch]
    simp only [Bool.false_eq_true, if_false]
    rw [he]
  refine ⟨e, ⟨f2, hf2, hf2err⟩, hdel, ?_⟩
  intro f hf
  rw [hdel]
  exact List.mem_of_mem_filter hf

/-- Witness for C3: deleting files 30 and 31 of the sample project while
every S3 delete fails with a 500. -/
theorem batch_delete_aborts_on_failure_witness :
    ∃ e, (∃ f ∈ sampleDb.files.filter
            (fun f => (([30, 31] : List Nat).dedup).contains f.id
              && f.projectId == 2),
          delete_file_from_s3 failDeleteEnv f.path = some e) ∧
      delete_file failDeleteEnv sampleDb 5 1 2 [30, 31]
        = (sampleDb, some e) ∧
      ∀ f ∈ sampleDb.files.filter
          (fun f => (([30, 31] : List Nat).dedup).contains f.id
            && f.projectId == 2),
        f ∈ (delete_file failDeleteEnv sampleDb 5 1 2 [30, 31]).1.files :=
  batch_delete_aborts_on_failure failDeleteEnv sampleDb 5 1 2 [30, 31]
    sampleProject (by decide) (by decide) (by decide)
    ⟨samplePdfRow, by decide, by decide⟩

/-! ## C2: upload batch lemmas -/

theorem upload_file_to_s3_ok {env : S3Env} {p : Nat} {f : UploadedFile}
    {rid : Nat} {r : FileSchema} (h : upload_file_to_s3 env p f rid = .ok r) :
    ∃ ext, env.guessExt (env.sniff f.content) = some ext ∧
      r.path = s3Key p rid ext ∧ r.id = none ∧
      r.mime_type = env.sniff f.content ∧ r.size = f.content.length ∧
      r.original_filename = f.filename ∧ r.contents = none ∧
      r.processed_at = none := by
  unfold upload_file_to_s3 at h
  dsimp only at h
  cases hext : env.guessExt (env.sniff f.content) with
  | none => rw [hext] at h; cases h
  | some ext =>
    rw [hext] at h
    dsimp only at h
    by_cases hput : env.putCode (s3Key p rid ext) = 200
    · rw [if_pos hput] at h
      cases h
      exact ⟨ext, rfl, rfl, rfl, rfl, rfl, rfl, rfl, rfl⟩
    · rw [if_neg hput] at h
      cases h

theorem uploadFilesToS3_spec (env : S3Env) (p : Nat)
    (hExt : ∀ m e, env.guessExt m = some e → dotExtension e = true) :
    ∀ (files : List UploadedFile) (fresh : Nat) (rs : List FileSchema),
      uploadFilesToS3 env p files fresh = .ok rs →
      rs.length = files.length ∧
      (∀ r ∈ rs, ∃ rid ext uf, uf ∈ files ∧ fresh ≤ rid ∧
        env.guessExt (env.sniff uf.content) = some ext ∧
        r.path = s3Key p rid ext ∧ r.mime_type = env.sniff uf.content) ∧
      (rs.map (fun r => r.path)).Nodup := by
  intro files
  induction files with
  | nil =>
    intro fresh rs h
    unfold uploadFilesToS3 at h
    cases h
    refine ⟨rfl, ?_, List.nodup_nil⟩
    intro r hr
    cases hr
  | cons f rest ih =>
    intro fresh rs h
    unfold uploadFilesToS3 at h
    cases hu : upload_file_to_s3 env p f fresh with
    | error e => rw [hu] at h; cases h
    | ok r =>
      rw [hu] at h
      dsimp only at h
      cases hrec : uploadFilesToS3 env p rest (fresh + 1) with
      | error e => rw [hrec] at h; cases h
      | ok rs' =>
        rw [hrec] at h
        cases h
        obtain ⟨hlen, hchar, hnodup⟩ := ih (fresh + 1) rs' hrec
        obtain ⟨ext0, hext0, hpath0, _, hmime0, _⟩ := upload_file_to_s3_ok hu
        refine ⟨by simp [hlen], ?_, ?_⟩
        · intro r2 hr2
          rcases List.mem_cons.mp hr2 with rfl | hmem
          · exact ⟨fresh, ext0, f, List.mem_cons_self f rest, Nat.le_refl _,
              hext0, hpath0, hmime0⟩
          · obtain ⟨rid, ext, uf, hu2, hle, hg, hp2, hm2⟩ := hchar r2 hmem
            exact ⟨rid, ext, uf, List.mem_cons_of_mem f hu2, by omega,
              hg, hp2, hm2⟩
        · refine List.nodup_cons.mpr ⟨?_, hnodup⟩
          intro hmem
          obtain ⟨r2, hr2, hr2path⟩ := List.mem_map.mp hmem
          have hr2p : r2.path = r.path := hr2path
          obtain ⟨rid, ext, uf, _, hle, hg, hp2, _⟩ := hchar r2 hr2
          have hkey : s3Key p rid ext = s3Key p fresh ext0 := by
            rw [← hp2, hr2p, hpath0]
          have := s3Key_inj (hExt _ _ hg) (hExt _ _ hext0) hkey
          omega

theorem getDownloadUrls_length (env : S3Env) :
    ∀ (rs : List FileSchema) (us : List PresignedUrl),
      getDownloadUrls env rs = .ok us → us.length = rs.length := by
  intro rs
  induction rs with
  | nil => intro us h; unfold getDownloadUrls at h; cases h; rfl
  | cons r rest ih =>
    intro us h
    unfold getDownloadUrls at h
    cases hd : get_download_url env r.path r.original_filename with
    | error e => rw [hd] at h; cases h
    | ok u =>
      rw [hd] at h
      dsimp only at h
      cases hrec : getDownloadUrls env rest with
      | error e => rw [hrec] at h; cases h
      | ok us' =>
        rw [hrec] at h
        cases h
        simp [ih us' hrec]

theorem mkDbFiles_length (p : Nat) :
    ∀ (rs : List FileSchema) (base now : Nat),
      (mkDbFiles p rs base now).length = rs.length := by
  intro rs
  induction rs with
  | nil => intro base now; rfl
  | cons r rest ih => intro base now; simp [mkDbFiles, ih]

theorem mkDbFiles_path_map (p : Nat) :
    ∀ (rs : List FileSchema) (base now : Nat),
      (mkDbFiles p rs base now).map (fun f => f.path)
        = rs.map (fun r => r.path) := by
  intro rs
  induction rs with
  | nil => intro base now; rfl
  | cons r rest ih => intro base now; simp [mkDbFiles, ih]

theorem mkDbFiles_fields (p : Nat) :
    ∀ (rs : List FileSchema) (base now : Nat), ∀ f ∈ mkDbFiles p rs base now,
      f.contents = none ∧ f.processedAt = none ∧ f.projectId = p ∧
      ∃ r ∈ rs, f.path = r.path ∧ f.mimeType = r.mime_type := by
  intro rs
  induction rs with
  | nil => intro base now f hf; cases hf
  | cons r rest ih =>
    intro base now f hf
    rcases List.mem_cons.mp hf with rfl | hmem
    · exact ⟨rfl, rfl, rfl, r, List.mem_cons_self r rest, rfl, rfl⟩
    · obtain ⟨h1, h2, h3, r2, hr2, h4⟩ := ih (base + 1) now f hmem
      exact ⟨h1, h2, h3, r2, List.mem_cons_of_mem r hr2, h4⟩

theorem scheduleTasks_fileIds (p sid now : Nat) :
    ∀ (rs : List FileSchema) (us : List PresignedUrl) (base : Nat),
      us.length = rs.length →
      (scheduleTasks sid (assignIds rs base) us).map (fun t => t.fileId)
        = ((mkDbFiles p rs base now).filter
            (fun f => f.mimeType == "application/pdf")).map (fun f => f.id) := by
  intro rs
  induction rs with
  | nil =>
    intro us base hlen
    cases us with
    | nil => rfl
    | cons u us' => simp at hlen
  | cons r rest ih =>
    intro us base hlen
    cases us with
    | nil => simp at hlen
    | cons u us' =>
      simp only [List.length_cons, Nat.succ.injEq] at hlen
      unfold assignIds scheduleTasks mkDbFiles
      dsimp only
      rw [List.filter_cons]
      by_cases hm : r.mime_type = "application/pdf"
      · simp [hm, ih us' (base + 1) hlen]
      · simp [hm, ih us' (base + 1) hlen]

/-- C2. A successful upload of a batch of K files commits exactly K new
File rows appended to the table, whose generated paths are pairwise
distinct and each of the shape `projects/{projectId}/{randomId}{ext}` with
the extension guessed from the content-sniffed MIME type of one of the
batch's files; and the list of scheduled background-task file ids is
exactly the list of ids of the new rows whose sniffed MIME type is
`application/pdf` — a task is scheduled for a file if and only if it
sniffed as PDF.  The `hExt` hypothesis is the `mimetypes.guess_extension`
contract: a produced extension starts with a dot. -/
theorem upload_batch_spec (env : S3Env) (db : DB) (u o p : Nat)
    (files : List UploadedFile) (fresh sessionId now : Nat) (R : UploadOutcome)
    (hExt : ∀ m e, env.guessExt m = some e → dotExtension e = true)
    (h : upload env db u o p files fresh sessionId now = .ok R) :
    ∃ newRows : List DbFile,
      R.db.files = db.files ++ newRows ∧
      newRows.length = files.length ∧
      (newRows.map (fun f => f.path)).Nodup ∧
      (∀ f ∈ newRows, f.projectId = p ∧ ∃ rid ext uf, uf ∈ files ∧
        env.guessExt (env.sniff uf.content) = some ext ∧
        f.path = s3Key p rid ext) ∧
      R.tasks.map (fun t => t.fileId)
        = (newRows.filter (fun f => f.mimeType == "application/pdf")).map
            (fun f => f.id) := by
  unfold upload at h
  cases hg : get_project db u o p true with
  | error e => rw [hg] at h; cases h
  | ok proj =>
    rw [hg] at h
    dsimp only at h
    cases hu : uploadFilesToS3 env p files fresh with
    | error e => rw [hu] at h; cases h
    | ok results =>
      rw [hu] at h
      dsimp only at h
      cases hd : getDownloadUrls env results with
      | error e => rw [hd] at h; cases h
      | ok urls =>
        rw [hd] at h
        cases h
        obtain ⟨hlen, hchar, hnodup⟩ := uploadFilesToS3_spec env p hExt files fresh results hu
        refine ⟨mkDbFiles p results (fresh + files.length) now, rfl, ?_, ?_, ?_, ?_⟩
        · rw [mkDbFiles_length, hlen]
        · rw [mkDbFiles_path_map]
          exact hnodup
        · intro f hf
          obtain ⟨_, _, hproj, r, hr, hpath, _⟩ :=
            mkDbFiles_fields p results (fresh + files.length) now f hf
          obtain ⟨rid, ext, uf, huf, _, hg2, hp2, _⟩ := hchar r hr
          exact ⟨hproj, rid, ext, uf, huf, hg2, hpath.trans hp2⟩
        · exact scheduleTasks_fileIds p sessionId now results urls
            (fresh + files.length) (getDownloadUrls_length env results urls hd)

/-- A second sample upload payload. -/
def samplePdfUpload2 : UploadedFile :=
  { filename := "b.pdf", content := [1, 2, 3] }

/-- Witness for C2: uploading two PDFs into the sample project; K = 2 rows
with the distinct generated keys `projects/2/100.pdf` and
`projects/2/101.pdf`, and both (being PDFs) get a scheduled task. -/
theorem upload_batch_spec_witness :
    ∃ newRows : List DbFile,
      ((UploadOutcome.mk
        [{ id := some 102, path := "projects/2/100.pdf", size := 4,
           mime_type := "application/pdf", original_filename := "a.pdf",
           processed_at := none, contents := none },
         { id := some 103, path := "projects/2/101.pdf", size := 3,
           mime_type := "application/pdf", original_filename := "b.pdf",
           processed_at := none, contents := none }]
        { sampleDb with files := sampleDb.files ++
            [{ id := 102, path := "projects/2/100.pdf", size := 4,
               mimeType := "application/pdf", originalFilename := "a.pdf",
               contents := none, createdAt := 50, processedAt := none,
               projectId := 2 },
             { id := 103, path := "projects/2/101.pdf", size := 3,
               mimeType := "application/pdf", originalFilename := "b.pdf",
               contents := none, createdAt := 50, processedAt := none,
               projectId := 2 }] }
        [⟨⟨"projects/2/100.pdf", "a.pdf", 60⟩, 102, 7⟩,
         ⟨⟨"projects/2/101.pdf", "b.pdf", 60⟩, 103, 7⟩]).db.files
        = sampleDb.files ++ newRows) ∧
      newRows.length = ([samplePdfUpload, samplePdfUpload2] : List UploadedFile).length ∧
      (newRows.map (fun f => f.path)).Nodup ∧
      (∀ f ∈ newRows, f.projectId = 2 ∧ ∃ rid ext uf,
        uf ∈ ([samplePdfUpload, samplePdfUpload2] : List UploadedFile) ∧
        okPdfEnv.guessExt (okPdfEnv.sniff uf.content) = some ext ∧
        f.path = s3Key 2 rid ext) ∧
      (UploadOutcome.mk
        [{ id := some 102, path := "projects/2/100.pdf", size := 4,
           mime_type := "application/pdf", original_filename := "a.pdf",
           processed_at := none, contents := none },
         { id := some 103, path := "projects/2/101.pdf", size := 3,
           mime_type := "application/pdf", original_filename := "b.pdf",
           processed_at := none, contents := none }]
        { sampleDb with files := sampleDb.files ++
            [{ id := 102, path := "projects/2/100.pdf", size := 4,
               mimeType := "application/pdf", originalFilename := "a.pdf",
               contents := none, createdAt := 50, processedAt := none,
               projectId := 2 },
             { id := 103, path := "projects/2/101.pdf", size := 3,
               mimeType := "application/pdf", originalFilename := "b.pdf",
               contents := none, createdAt := 50, processedAt := none,
               projectId := 2 }] }
        [⟨⟨"projects/2/100.pdf", "a.pdf", 60⟩, 102, 7⟩,
         ⟨⟨"projects/2/101.pdf", "b.pdf", 60⟩, 103, 7⟩]).tasks.map
          (fun t => t.fileId)
        = (newRows.filter (fun f => f.mimeType == "application/pdf")).map
            (fun f => f.id) :=
  upload_batch_spec okPdfEnv sampleDb 5 1 2 [samplePdfUpload, samplePdfUpload2]
    100 7 50 _
    (fun m e he => by
      have h2 : ".pdf" = e := Option.some.inj he
      subst h2
      decide)
    (by decide)

/-! ## C5: invariant lemmas -/

/-- Updating one row by setting `contents` and `processed_at` together
preserves the invariant. -/
theorem setBoth_invariant (db : DB) (hinv : dbInvariant db)
    (fid : Nat) (body : String) (now : Nat) :
    dbInvariant { db with files := db.files.map (fun f =>
      if f.id = fid then
        { f with contents := some body, processedAt := some now }
      else f) } := by
  intro f hf
  simp only [List.mem_map] at hf
  obtain ⟨f0, hf0, hf0eq⟩ := hf
  by_cases hc : f0.id = fid
  · rw [if_pos hc] at hf0eq
    rw [← hf0eq]
    exact ⟨fun _ => rfl, fun _ => rfl⟩
  · rw [if_neg hc] at hf0eq
    rw [← hf0eq]
    exact hinv f0 hf0

/-- Dropping rows preserves the invariant. -/
theorem filter_invariant (db : DB) (hinv : dbInvariant db) (q : DbFile → Bool) :
    dbInvariant { db with files := db.files.filter q } := by
  intro f hf
  exact hinv f (List.mem_of_mem_filter hf)

theorem extract_text_invariant (svc : PresignedUrl → ExtractionResponse)
    (url : PresignedUrl) (fid sid : Nat) (db : DB) (now : Nat)
    (hinv : dbInvariant db) :
    dbInvariant (extract_text svc url fid sid db now).db := by
  unfold extract_text
  cases svc url with
  | httpError => exact hinv
  | ok body =>
    cases db.files.find? (fun f => f.id == fid) with
    | none => exact hinv
    | some f => exact setBoth_invariant db hinv fid body now

theorem runTasks_invariant (svc : PresignedUrl → ExtractionResponse)
    (now : Nat) :
    ∀ (tasks : List ScheduledTask) (db : DB), dbInvariant db →
      dbInvariant (runTasks svc now db tasks) := by
  intro tasks
  induction tasks with
  | nil => intro db hinv; exact hinv
  | cons t rest ih =>
    intro db hinv
    unfold runTasks
    dsimp only
    by_cases hr : (extract_text svc t.url t.fileId t.sessionId db now).raised
    · rw [if_pos hr]
      exact extract_text_invariant svc t.url t.fileId t.sessionId db now hinv
    · rw [if_neg hr]
      exact ih _ (extract_text_invariant svc t.url t.fileId t.sessionId db now hinv)

/-- C5. The pairing of `contents` and `processed_at` is an invariant of the
whole system: a database in which every File row has `contents` non-null
exactly when `processed_at` is non-null still satisfies this after the
background extraction task (and any run of scheduled tasks), after
bounding-box extraction, after upload (whose freshly created rows moreover
all have both fields null), after a whole upload request including its
background tasks, and after soft delete, hard delete and batch file
delete. -/
theorem contents_processed_invariant (db : DB) (hinv : dbInvariant db) :
    (∀ svc url fid sid now,
      dbInvariant (extract_text svc url fid sid db now).db) ∧
    (∀ svc now tasks, dbInvariant (runTasks svc now db tasks)) ∧
    (∀ (env : S3Env) (ai : AiOracle) (u o p fid now : Nat) (db2 : DB)
        (s : String),
      extract_bounding_boxes env ai db u o p fid now = .ok (db2, s) →
      dbInvariant db2) ∧
    (∀ (env : S3Env) (u o p : Nat) (files : List UploadedFile)
        (fresh sid now : Nat) (R : UploadOutcome),
      upload env db u o p files fresh sid now = .ok R →
      dbInvariant R.db ∧ ∃ rows, R.db.files = db.files ++ rows ∧
        ∀ f ∈ rows, f.contents = none ∧ f.processedAt = none) ∧
    (∀ (env : S3Env) svc (u o p : Nat) (files : List UploadedFile)
        (fresh sid now tnow : Nat),
      dbInvariant (handle_upload env svc db u o p files fresh sid now tnow).2) ∧
    (∀ (u o p now : Nat) (db2 : DB),
      delete_project db u o p now = .ok db2 → dbInvariant db2) ∧
    (∀ (env : S3Env) (u o p : Nat) (r : HardDeleteOutcome),
      hard_delete_project env db u o p = .ok r → dbInvariant r.db) ∧
    (∀ (env : S3Env) (u o p : Nat) (ids : List Nat),
      dbInvariant (delete_file env db u o p ids).1) := by
  have hupload : ∀ (env : S3Env) (u o p : Nat) (files : List UploadedFile)
      (fresh sid now : Nat) (R : UploadOutcome),
      upload env db u o p files fresh sid now = .ok R →
      dbInvariant R.db ∧ ∃ rows, R.db.files = db.files ++ rows ∧
        ∀ f ∈ rows, f.contents = none ∧ f.processedAt = none := by
    intro env u o p files fresh sid now R h
    unfold upload at h
    cases hg : get_project db u o p true with
    | error e => rw [hg] at h; cases h
    | ok proj =>
      rw [hg] at h
      dsimp only at h
      cases hu : uploadFilesToS3 env p files fresh with
      | error e => rw [hu] at h; cases h
      | ok results =>
        rw [hu] at h
        dsimp only at h
        cases hd : getDownloadUrls env results with
        | error e => rw [hd] at h; cases h
        | ok urls =>
          rw [hd] at h
          cases h
          have hrows : ∀ f ∈ mkDbFiles p results (fresh + files.length) now,
              f.contents = none ∧ f.processedAt = none := by
            intro f hf
            obtain ⟨h1, h2, _⟩ :=
              mkDbFiles_fields p results (fresh + files.length) now f hf
            exact ⟨h1, h2⟩
          refine ⟨?_, _, rfl, hrows⟩
          intro f hf
          rcases List.mem_append.mp hf with hmem | hmem
          · exact hinv f hmem
          · obtain ⟨h1, h2⟩ := hrows f hmem
            unfold fileInvariant
            rw [h1, h2]
            simp
  refine ⟨fun svc url fid sid now =>
      extract_text_invariant svc url fid sid db now hinv,
    fun svc now tasks => runTasks_invariant svc now tasks db hinv,
    ?_, hupload, ?_, ?_, ?_, ?_⟩
  · intro env ai u o p fid now db2 s h
    unfold extract_bounding_boxes at h
    cases hg : get_project db u o p true with
    | error e => rw [hg] at h; cases h
    | ok proj =>
      rw [hg] at h
      dsimp only at h
      cases hf : findProjectFile db p fid with
      | none => rw [hf] at h; cases h
      | some imageFile =>
        rw [hf] at h
        dsimp only at h
        cases hmime : !(List.isPrefixOf "image".data imageFile.mimeType.data) with
        | true => rw [hmime] at h; simp at h
        | false =>
          rw [hmime] at h
          simp only [Bool.false_eq_true, if_false] at h
          cases hdl : get_download_url env imageFile.path imageFile.originalFilename with
          | error e => rw [hdl] at h; cases h
          | ok url =>
            rw [hdl] at h
            dsimp only at h
            cases hdocs : (db.files.filter (fun f =>
                f.projectId == p && f.mimeType == "application/pdf"
                  && f.processedAt.isSome)).isEmpty with
            | true => rw [hdocs] at h; simp at h
            | false =>
              rw [hdocs] at h
              simp only [Bool.false_eq_true, if_false] at h
              cases hsp : prefLookup db "system_prompt" with
              | none => rw [hsp] at h; cases h
              | some sp =>
                rw [hsp] at h
                cases hap : prefLookup db "assistant_prompt" with
                | none => rw [hap] at h; cases h
                | some ap =>
                  rw [hap] at h
                  dsimp only at h
                  injection h with h2
                  injection h2 with h3 h4
                  rw [← h3]
                  exact setBoth_invariant db hinv fid _ now
  · intro env svc u o p files fresh sid now tnow
    unfold handle_upload
    cases hu : upload env db u o p files fresh sid now with
    | error e => exact hinv
    | ok R =>
      dsimp only
      exact runTasks_invariant svc tnow R.tasks R.db
        (hupload env u o p files fresh sid now R hu).1
  · intro u o p now db2 h
    unfold delete_project at h
    cases hg : get_project db u o p true with
    | error e => rw [hg] at h; cases h
    | ok proj =>
      rw [hg] at h
      cases h
      exact hinv
  · intro env u o p r h
    unfold hard_delete_project at h
    cases hg : get_project db u o p false with
    | error e => rw [hg] at h; cases h
    | ok proj =>
      rw [hg] at h
      dsimp only at h
      cases h
      exact filter_invariant db hinv _
  · intro env u o p ids
    unfold delete_file
    cases hg : get_project db u o p true with
    | error e => exact hinv
    | ok proj =>
      dsimp only
      cases hne : ids.isEmpty with
      | true => exact hinv
      | false =>
        simp only [Bool.false_eq_true, if_false]
        cases hm : (db.files.filter (fun f =>
            (ids.dedup).contains f.id && f.projectId == p)).isEmpty with
        | true => simp only [Bool.false_eq_true, if_false, hm]; exact hinv
        | false =>
          simp only [Bool.false_eq_true, if_false, hm]
          cases firstDeleteError env (db.files.filter (fun f =>
              (ids.dedup).contains f.id && f.projectId == p)) with
          | some e => exact hinv
          | none => exact filter_invariant db hinv _

/-- Witness for C5: the sample database (file 30 has both fields set, file
31 has both null) keeps the invariant through a successful extraction of
file 31 and through a batch delete of file 30. -/
theorem contents_processed_invariant_witness :
    dbInvariant (extract_text (fun _ => .ok "extracted")
      (PresignedUrl.mk "projects/2/31.png" "pic.png" 60) 31 7 sampleDb 99).db ∧
    dbInvariant (delete_file okPdfEnv sampleDb 5 1 2 [30]).1 :=
  ⟨(contents_processed_invariant sampleDb (by decide)).1
      (fun _ => .ok "extracted")
      (PresignedUrl.mk "projects/2/31.png" "pic.png" 60) 31 7 99,
   (contents_processed_invariant sampleDb (by decide)).2.2.2.2.2.2.2
      okPdfEnv 5 1 2 [30]⟩

end Visulinx
